import Mathlib

/-!
Verification of the parallel Monte Carlo quadrature pipeline of
`scikit-monaco` (package `skmcquad`): batch dispatch, per-batch
accumulation of first and second moments, order-independent reduction,
derivation of mean and standard error, and input validation of the two
entry points `mcquad` (uniform quadrature) and `mcimport`
(importance-sampling quadrature).

The repository ships only the test suite (`tests/test_uniform.py`,
`tests/test_importance.py`) and build configuration; the implementation
modules `skmcquad.uniform`, the importance module, and the compiled
`_mc` extension are absent. The pipeline below is therefore modelled
from the specification, with the tests constraining observable
behaviour. Sample values and statistics are exact rationals; the final
mean / standard-error derivation lives in `ℝ` because it takes a square
root.
-/

namespace Skmcquad

/-- Modelled from the spec: error taxonomy of the absent implementation
modules. `validationError` corresponds to Python `ValueError` (mismatched
`xl`/`xu` lengths, `npoints < 2`, `nprocs < 1`); `contractError`
corresponds to Python `TypeError` (seed supplied but not a two-element
integer pair). -/
inductive McError where
  | validationError : McError
  | contractError : McError
deriving DecidableEq

/-- Modelled from the spec: the dynamic Python value supplied as the
`seed` keyword argument of the absent entry points: absent (`None`), a
bare integer, or a list of integers. -/
inductive PySeed where
  | absent : PySeed
  | int : ℤ → PySeed
  | list : List ℤ → PySeed
deriving DecidableEq

/-- Modelled from the spec: a seed is well formed when it is absent or a
two-element integer list. -/
def isWellFormedSeed : PySeed → Bool
  | .absent => true
  | .list [_, _] => true
  | _ => false

/-- Modelled from the spec: seed validation of the absent entry points.
An absent seed means non-deterministic operation; a two-element integer
list becomes the seed pair; anything else is a contract (type) error. -/
def validateSeed : PySeed → Except McError (Option (ℤ × ℤ))
  | .absent => .ok none
  | .list [s0, s1] => .ok (some (s0, s1))
  | _ => .error .contractError

/-- Modelled from the spec: `BatchStatistics (n, S, S2)` where `S = Σ vᵢ`
and `S2 = Σ vᵢ²` over the batch's evaluated values, produced by the
absent batch accumulator. -/
structure BatchStatistics where
  n : ℕ
  S : ℚ
  S2 : ℚ
deriving DecidableEq

/-- Modelled from the spec: batch statistics combine by componentwise
addition (`n`, `S`, `S2` each sum independently). -/
def BatchStatistics.add (a b : BatchStatistics) : BatchStatistics :=
  ⟨a.n + b.n, a.S + b.S, a.S2 + b.S2⟩

/-- Modelled from the spec: the empty statistics, identity of
`BatchStatistics.add`. -/
def emptyStats : BatchStatistics := ⟨0, 0, 0⟩

/-- Modelled from the spec: the Reducer sums `n`, `S`, `S2` across all
batch statistics. -/
def reduceStats (stats : List BatchStatistics) : BatchStatistics :=
  stats.foldr BatchStatistics.add emptyStats

/-- Modelled from the spec: the absent batch accumulator turns one
batch's evaluated values into `(count, sum, sum of squares)`. -/
def accumulate (vs : List ℚ) : BatchStatistics :=
  ⟨vs.length, vs.sum, (vs.map (fun v => v ^ 2)).sum⟩

/-- Modelled from the spec: from reduced global statistics the Reducer
derives `mean = S / N`, `variance = S2 / N - mean ^ 2` (population
moments, no Bessel correction) and `standard_error = sqrt (variance / N)`. -/
noncomputable def derive (g : BatchStatistics) : ℝ × ℝ :=
  let N : ℝ := (g.n : ℝ)
  let mean : ℝ := (g.S : ℝ) / N
  let variance : ℝ := (g.S2 : ℝ) / N - mean ^ 2
  (mean, Real.sqrt (variance / N))

/-- Modelled from the spec: the effective batch size of the absent
dispatcher, the configured one when given, else `npoints / nprocs`, with
a minimum of one point per batch. -/
def effectiveBatchSize (npoints nprocs : ℕ) : Option ℤ → ℕ
  | some b => max 1 b.toNat
  | none => max 1 (npoints / nprocs)

/-- Modelled from the spec: the absent dispatcher splits `npoints` into
batches of `b` points, the remainder being absorbed into the final
batch so the counts sum exactly to `npoints`. -/
def batchSizes (npoints b : ℕ) : List ℕ :=
  if npoints / b = 0 then [npoints]
  else List.replicate (npoints / b - 1) b ++ [b + npoints % b]

/-- Modelled from the spec: batch `i` receives the seed `(s0, s1 + i)`
derived from an explicit seed pair `(s0, s1)`; with no explicit seed
each batch draws fresh entropy. -/
def batchSeed (entropy : ℕ → ℤ × ℤ) (sd : Option (ℤ × ℤ)) (i : ℕ) : ℤ × ℤ :=
  match sd with
  | some (s0, s1) => (s0, s1 + (i : ℤ))
  | none => entropy i

/-- Modelled from the spec: the worker pool runs one batch per count,
batch `i` on the `i`-th count, collecting every batch's statistics
exactly once. -/
def runBatches (worker : ℕ → ℕ → BatchStatistics) : ℕ → List ℕ → List BatchStatistics
  | _, [] => []
  | i, n :: rest => worker i n :: runBatches worker (i + 1) rest

/-- Modelled from the spec: volume of the hyper-rectangle `[xl, xu]`,
the product of the side lengths `xuᵢ - xlᵢ`. -/
def volume (xl xu : List ℚ) : ℚ :=
  (List.zipWith (fun a b => b - a) xl xu).prod

/-- Modelled from the spec: the uniform sample source maps a raw
point `u` of per-coordinate uniform draws in `[0, 1]` to the point
`xl + u * (xu - xl)` of the rectangle. -/
def uniformPoint (xl xu u : List ℚ) : List ℚ :=
  List.zipWith (fun p r => p.1 + r * (p.2 - p.1)) (xl.zip xu) u

/-- Modelled from the spec: evaluated values of one uniform batch; the
seeded stream supplies the raw draws, the integrand is applied to each
transformed sample. -/
def uniformValues (stream : ℤ × ℤ → ℕ → List ℚ) (f : List ℚ → ℚ)
    (xl xu : List ℚ) (sd : ℤ × ℤ) (n : ℕ) : List ℚ :=
  (List.range n).map (fun j => f (uniformPoint xl xu (stream sd j)))

/-- Modelled from the spec: one uniform worker accumulates the values of
batch `i` holding `n` points under that batch's derived seed. -/
def uniformWorker (stream : ℤ × ℤ → ℕ → List ℚ) (f : List ℚ → ℚ)
    (xl xu : List ℚ) (entropy : ℕ → ℤ × ℤ) (sd : Option (ℤ × ℤ))
    (i n : ℕ) : BatchStatistics :=
  accumulate (uniformValues stream f xl xu (batchSeed entropy sd i) n)

/-- Modelled from the spec: global statistics of a uniform run, the
reduction of every batch's statistics. -/
def uniformGlobalStats (stream : ℤ × ℤ → ℕ → List ℚ) (f : List ℚ → ℚ)
    (xl xu : List ℚ) (entropy : ℕ → ℤ × ℤ) (sd : Option (ℤ × ℤ))
    (npoints bsz : ℕ) : BatchStatistics :=
  reduceStats (runBatches (uniformWorker stream f xl xu entropy sd) 0 (batchSizes npoints bsz))

/-- Modelled from the spec: evaluated values of one importance batch;
the user distribution supplies sample `j` of the seeded stream, and each
integrand value is multiplied by the scalar weight before accumulation. -/
def importValues (dist : ℤ × ℤ → ℕ → List ℚ) (f : List ℚ → ℚ)
    (weight : ℚ) (sd : ℤ × ℤ) (n : ℕ) : List ℚ :=
  (List.range n).map (fun j => weight * f (dist sd j))

/-- Modelled from the spec: one importance worker accumulates the
weighted values of batch `i` holding `n` points. -/
def importWorker (dist : ℤ × ℤ → ℕ → List ℚ) (f : List ℚ → ℚ)
    (weight : ℚ) (entropy : ℕ → ℤ × ℤ) (sd : Option (ℤ × ℤ))
    (i n : ℕ) : BatchStatistics :=
  accumulate (importValues dist f weight (batchSeed entropy sd i) n)

/-- Modelled from the spec: global statistics of an importance run. -/
def importGlobalStats (dist : ℤ × ℤ → ℕ → List ℚ) (f : List ℚ → ℚ)
    (weight : ℚ) (entropy : ℕ → ℤ × ℤ) (sd : Option (ℤ × ℤ))
    (npoints bsz : ℕ) : BatchStatistics :=
  reduceStats (runBatches (importWorker dist f weight entropy sd) 0 (batchSizes npoints bsz))

/-- Modelled from the spec: scaling of a result pair, applied once after
reduction (by the rectangle volume for uniform quadrature). -/
def scale2 (c : ℝ) (p : ℝ × ℝ) : ℝ × ℝ := (c * p.1, c * p.2)

/-- Modelled from the spec: the post-validation uniform pipeline — batch
the points, run the workers, reduce, derive, scale by the volume. -/
noncomputable def uniformResult (stream : ℤ × ℤ → ℕ → List ℚ) (entropy : ℕ → ℤ × ℤ)
    (f : List ℚ → ℚ) (npoints : ℤ) (xl xu : List ℚ) (nprocs : ℤ)
    (batch_size : Option ℤ) (sd : Option (ℤ × ℤ)) : ℝ × ℝ :=
  scale2 ((volume xl xu : ℝ))
    (derive (uniformGlobalStats stream f xl xu entropy sd npoints.toNat
      (effectiveBatchSize npoints.toNat nprocs.toNat batch_size)))

/-- Modelled from the spec: the post-validation importance pipeline —
the weight has already multiplied every sample value, so no scaling
follows the reduction; the default batch size `npoints / nprocs` is
used. -/
noncomputable def importResult (dist : ℤ × ℤ → ℕ → List ℚ) (entropy : ℕ → ℤ × ℤ)
    (f : List ℚ → ℚ) (npoints : ℤ) (nprocs : ℤ) (weight : ℚ)
    (sd : Option (ℤ × ℤ)) : ℝ × ℝ :=
  derive (importGlobalStats dist f weight entropy sd npoints.toNat
    (effectiveBatchSize npoints.toNat nprocs.toNat none))

/-- Modelled from the spec: the absent `skmcquad.uniform.mcquad` entry
point. It validates the rectangle bounds, `npoints ≥ 2`, `nprocs ≥ 1`
and the seed shape before any sampling, runs the batched pipeline, and
scales mean and standard error once by the rectangle volume. The seeded
stream and the per-batch fresh-entropy source are explicit parameters
standing for the opaque pseudo-random generator. -/
noncomputable def mcquad (stream : ℤ × ℤ → ℕ → List ℚ) (entropy : ℕ → ℤ × ℤ)
    (f : List ℚ → ℚ) (npoints : ℤ) (xl xu : List ℚ) (nprocs : ℤ)
    (batch_size : Option ℤ) (seed : PySeed) : Except McError (ℝ × ℝ) :=
  if xl.length ≠ xu.length ∨ npoints < 2 ∨ nprocs < 1 then
    .error .validationError
  else
    match validateSeed seed with
    | .error e => .error e
    | .ok sd => .ok (uniformResult stream entropy f npoints xl xu nprocs batch_size sd)

/-- Modelled from the spec: the absent `skmcquad.mcimport` entry point.
It validates `npoints ≥ 2`, `nprocs ≥ 1` and the seed shape before any
sampling, multiplies each integrand value by the scalar weight before
accumulation, and performs no further scaling after reduction. -/
noncomputable def mcimport (dist : ℤ × ℤ → ℕ → List ℚ) (entropy : ℕ → ℤ × ℤ)
    (f : List ℚ → ℚ) (npoints : ℤ) (nprocs : ℤ) (weight : ℚ)
    (seed : PySeed) : Except McError (ℝ × ℝ) :=
  if npoints < 2 ∨ nprocs < 1 then
    .error .validationError
  else
    match validateSeed seed with
    | .error e => .error e
    | .ok sd => .ok (importResult dist entropy f npoints nprocs weight sd)

/-- Constant sample stream used to instantiate theorems at concrete
inputs. -/
def wStream : ℤ × ℤ → ℕ → List ℚ := fun _ _ => [0]

/-- One concrete entropy source. -/
def wEntropy : ℕ → ℤ × ℤ := fun _ => (0, 0)

/-- A second, different concrete entropy source. -/
def wEntropy2 : ℕ → ℤ × ℤ := fun _ => (17, 3)

/-- Concrete user distribution whose `j`-th sample is the singleton
point `[j]`. -/
def wDist : ℤ × ℤ → ℕ → List ℚ := fun _ j => [(j : ℚ)]

/-- Concrete integrand summing the coordinates of a point. -/
def wSum : List ℚ → ℚ := fun p => p.sum

/-- Concrete constant integrand. -/
def wOne : List ℚ → ℚ := fun _ => 1

/-- Concrete batch statistics used to instantiate theorems. -/
def wStatsA : BatchStatistics := ⟨1, 1, 2⟩

/-- A second concrete batch statistics value. -/
def wStatsB : BatchStatistics := ⟨2, 3, 7⟩

/-- Statistics of values all multiplied by a scalar `w`: the count is
unchanged, the sum scales by `w`, the sum of squares by `w ^ 2`. -/
def scaleStats (w : ℚ) (g : BatchStatistics) : BatchStatistics :=
  ⟨g.n, w * g.S, w ^ 2 * g.S2⟩

/-- Every batch-size list sums exactly to the requested point count:
the remainder of the division is absorbed into the final batch. -/
lemma batchSizes_sum (npoints b : ℕ) : (batchSizes npoints b).sum = npoints := by
  unfold batchSizes
  split
  · simp
  · next h =>
    have hb : 1 ≤ npoints / b := Nat.one_le_iff_ne_zero.mpr h
    have hmul : (npoints / b - 1) * b + b = npoints / b * b := by
      calc (npoints / b - 1) * b + b = (npoints / b - 1 + 1) * b := by ring
        _ = npoints / b * b := by rw [Nat.sub_add_cancel hb]
    have hdm : npoints / b * b + npoints % b = npoints := by
      rw [mul_comm]; exact Nat.div_add_mod npoints b
    simp only [List.sum_append, List.sum_replicate, smul_eq_mul, List.sum_cons,
      List.sum_nil, add_zero]
    linarith [hmul, hdm]

/-- The reduction is componentwise summation of the batch statistics. -/
lemma reduceStats_eq (l : List BatchStatistics) :
    reduceStats l = ⟨(l.map BatchStatistics.n).sum, (l.map BatchStatistics.S).sum,
      (l.map BatchStatistics.S2).sum⟩ := by
  induction l with
  | nil => rfl
  | cons a t ih =>
    show a.add (reduceStats t) = _
    rw [ih]
    rfl

/-- The seed of batch `i` under an explicit seed pair is `(s0, s1 + i)`,
independent of the fresh-entropy source. -/
lemma batchSeed_some (entropy : ℕ → ℤ × ℤ) (p : ℤ × ℤ) (i : ℕ) :
    batchSeed entropy (some p) i = (p.1, p.2 + (i : ℤ)) := rfl

/-- With an explicit seed pair, the importance pipeline ignores the
fresh-entropy source entirely. -/
lemma importGlobalStats_entropy_eq (dist : ℤ × ℤ → ℕ → List ℚ) (f : List ℚ → ℚ)
    (weight : ℚ) (e1 e2 : ℕ → ℤ × ℤ) (p : ℤ × ℤ) (np bs : ℕ) :
    importGlobalStats dist f weight e1 (some p) np bs =
      importGlobalStats dist f weight e2 (some p) np bs := by
  unfold importGlobalStats
  have hw : importWorker dist f weight e1 (some p) = importWorker dist f weight e2 (some p) := by
    funext i n
    unfold importWorker
    rw [batchSeed_some, batchSeed_some]
  rw [hw]

/-- With an explicit seed pair, the uniform pipeline ignores the
fresh-entropy source entirely. -/
lemma uniformGlobalStats_entropy_eq (stream : ℤ × ℤ → ℕ → List ℚ) (f : List ℚ → ℚ)
    (xl xu : List ℚ) (e1 e2 : ℕ → ℤ × ℤ) (p : ℤ × ℤ) (np bs : ℕ) :
    uniformGlobalStats stream f xl xu e1 (some p) np bs =
      uniformGlobalStats stream f xl xu e2 (some p) np bs := by
  unfold uniformGlobalStats
  have hw : uniformWorker stream f xl xu e1 (some p) = uniformWorker stream f xl xu e2 (some p) := by
    funext i n
    unfold uniformWorker
    rw [batchSeed_some, batchSeed_some]
  rw [hw]

/-- With a two-element list seed, `mcimport` does not depend on the
fresh-entropy source. -/
lemma mcimport_entropy_irrelevant (dist : ℤ × ℤ → ℕ → List ℚ) (f : List ℚ → ℚ)
    (npoints nprocs : ℤ) (weight : ℚ) (s0 s1 : ℤ) (e1 e2 : ℕ → ℤ × ℤ) :
    mcimport dist e1 f npoints nprocs weight (.list [s0, s1]) =
      mcimport dist e2 f npoints nprocs weight (.list [s0, s1]) := by
  unfold mcimport
  split
  · rfl
  · show Except.ok (importResult dist e1 f npoints nprocs weight (some (s0, s1))) =
      Except.ok (importResult dist e2 f npoints nprocs weight (some (s0, s1)))
    unfold importResult
    rw [importGlobalStats_entropy_eq dist f weight e1 e2 (s0, s1)]

/-- With a two-element list seed, `mcquad` does not depend on the
fresh-entropy source. -/
lemma mcquad_entropy_irrelevant (stream : ℤ × ℤ → ℕ → List ℚ) (f : List ℚ → ℚ)
    (npoints : ℤ) (xl xu : List ℚ) (nprocs : ℤ) (batch_size : Option ℤ)
    (s0 s1 : ℤ) (e1 e2 : ℕ → ℤ × ℤ) :
    mcquad stream e1 f npoints xl xu nprocs batch_size (.list [s0, s1]) =
      mcquad stream e2 f npoints xl xu nprocs batch_size (.list [s0, s1]) := by
  unfold mcquad
  split
  · rfl
  · show Except.ok (uniformResult stream e1 f npoints xl xu nprocs batch_size (some (s0, s1))) =
      Except.ok (uniformResult stream e2 f npoints xl xu nprocs batch_size (some (s0, s1)))
    unfold uniformResult
    rw [uniformGlobalStats_entropy_eq stream f xl xu e1 e2 (s0, s1)]

/-- A seed value that is neither absent nor a two-element integer list
fails seed validation with a contract (type) error. -/
lemma validateSeed_malformed (seed : PySeed) (hbad : isWellFormedSeed seed = false) :
    validateSeed seed = .error .contractError := by
  cases seed with
  | absent => simp [isWellFormedSeed] at hbad
  | int n => rfl
  | list xs =>
    match xs with
    | [] => rfl
    | [a] => rfl
    | [a, b] => simp [isWellFormedSeed] at hbad
    | a :: b :: c :: rest => rfl

/-- On otherwise valid inputs, a malformed seed makes `mcquad` fail with
a contract error. -/
lemma mcquad_malformed_seed (stream : ℤ × ℤ → ℕ → List ℚ) (entropy : ℕ → ℤ × ℤ)
    (f : List ℚ → ℚ) (npoints : ℤ) (xl xu : List ℚ) (nprocs : ℤ)
    (batch_size : Option ℤ) (seed : PySeed)
    (hlen : xl.length = xu.length) (h2 : 2 ≤ npoints) (h1 : 1 ≤ nprocs)
    (hbad : isWellFormedSeed seed = false) :
    mcquad stream entropy f npoints xl xu nprocs batch_size seed = .error .contractError := by
  unfold mcquad
  rw [if_neg, validateSeed_malformed seed hbad]
  push_neg
  exact ⟨hlen, by omega, by omega⟩

/-- C2: two calls to the same estimator with the identical two-integer
seed pair and the identical partition (same `npoints`, `nprocs`,
`batch_size`) return identical `(estimate, standard_error)`: the result
is a pure function of those inputs and in particular independent of the
fresh-entropy source that an unseeded run would consume. -/
theorem C2_seed_determinism (dist stream : ℤ × ℤ → ℕ → List ℚ) (f : List ℚ → ℚ)
    (npoints nprocs : ℤ) (weight : ℚ) (batch_size : Option ℤ) (xl xu : List ℚ)
    (s0 s1 : ℤ) (e1 e2 : ℕ → ℤ × ℤ) :
    mcimport dist e1 f npoints nprocs weight (.list [s0, s1]) =
      mcimport dist e2 f npoints nprocs weight (.list [s0, s1]) ∧
    mcquad stream e1 f npoints xl xu nprocs batch_size (.list [s0, s1]) =
      mcquad stream e2 f npoints xl xu nprocs batch_size (.list [s0, s1]) :=
  ⟨mcimport_entropy_irrelevant dist f npoints nprocs weight s0 s1 e1 e2,
   mcquad_entropy_irrelevant stream f npoints xl xu nprocs batch_size s0 s1 e1 e2⟩

/-- C3: merging batch statistics is order-independent — for every
permutation of a list of batch statistics the Reducer yields the same
global `(N, S, S2)` and hence the same derived `(mean, standard_error)`. -/
theorem C3_merge_order_independent (l l' : List BatchStatistics) (h : l.Perm l') :
    reduceStats l = reduceStats l' ∧
      derive (reduceStats l) = derive (reduceStats l') := by
  have hr : reduceStats l = reduceStats l' := by
    rw [reduceStats_eq, reduceStats_eq,
      (h.map BatchStatistics.n).sum_eq, (h.map BatchStatistics.S).sum_eq,
      (h.map BatchStatistics.S2).sum_eq]
  exact ⟨hr, by rw [hr]⟩

/-- C3 witness: swapping two concrete batch statistics leaves the
reduction and the derived result unchanged. -/
theorem C3_merge_order_independent_witness :
    ([wStatsA, wStatsB].Perm [wStatsB, wStatsA]) ∧
    (reduceStats [wStatsA, wStatsB] = reduceStats [wStatsB, wStatsA] ∧
      derive (reduceStats [wStatsA, wStatsB]) = derive (reduceStats [wStatsB, wStatsA])) :=
  ⟨List.Perm.swap wStatsB wStatsA [],
   C3_merge_order_independent [wStatsA, wStatsB] [wStatsB, wStatsA]
     (List.Perm.swap wStatsB wStatsA [])⟩

/-- C6: for every `npoints ≥ 2`, `nprocs ≥ 1` and optional batch size,
the dispatcher's batch point counts sum exactly to `npoints` (the
remainder is absorbed into the final batch), and the default batch size
is `npoints / nprocs` with a minimum of one point per batch. -/
theorem C6_partition_sums_to_npoints (npoints nprocs : ℤ) (batch_size : Option ℤ)
    (h2 : 2 ≤ npoints) (h1 : 1 ≤ nprocs) :
    (batchSizes npoints.toNat
        (effectiveBatchSize npoints.toNat nprocs.toNat batch_size)).sum = npoints.toNat ∧
    effectiveBatchSize npoints.toNat nprocs.toNat none =
      max 1 (npoints.toNat / nprocs.toNat) :=
  ⟨batchSizes_sum _ _, rfl⟩

/-- C6 witness: seven points over two workers with batch size three give
batches summing to seven. -/
theorem C6_partition_sums_to_npoints_witness :
    (2 : ℤ) ≤ 7 ∧ (1 : ℤ) ≤ 2 ∧
    ((batchSizes (7 : ℤ).toNat
        (effectiveBatchSize (7 : ℤ).toNat (2 : ℤ).toNat (some 3))).sum = (7 : ℤ).toNat ∧
      effectiveBatchSize (7 : ℤ).toNat (2 : ℤ).toNat none =
        max 1 ((7 : ℤ).toNat / (2 : ℤ).toNat)) :=
  ⟨by norm_num, by norm_num,
   C6_partition_sums_to_npoints 7 2 (some 3) (by norm_num) (by norm_num)⟩

/-- C7: a call with mismatched bound lengths, or `npoints < 2`, or
`nprocs < 1`, fails with a validation error, for every stream, entropy
source, integrand and seed — the error is raised before any sampling
work begins. -/
theorem C7_validation_errors (stream : ℤ × ℤ → ℕ → List ℚ) (entropy : ℕ → ℤ × ℤ)
    (f : List ℚ → ℚ) (npoints : ℤ) (xl xu : List ℚ) (nprocs : ℤ)
    (batch_size : Option ℤ) (seed : PySeed)
    (h : xl.length ≠ xu.length ∨ npoints < 2 ∨ nprocs < 1) :
    mcquad stream entropy f npoints xl xu nprocs batch_size seed =
      .error .validationError := by
  unfold mcquad
  rw [if_pos h]

/-- C7 witness: mismatched bounds `xl = [0, 0]`, `xu = [1]` fail with a
validation error. -/
theorem C7_validation_errors_witness :
    (([0, 0] : List ℚ).length ≠ ([1] : List ℚ).length ∨ (2000 : ℤ) < 2 ∨ (1 : ℤ) < 1) ∧
    mcquad wStream wEntropy wOne 2000 [0, 0] [1] 1 none .absent =
      .error .validationError :=
  ⟨Or.inl (by decide),
   C7_validation_errors wStream wEntropy wOne 2000 [0, 0] [1] 1 none .absent
     (Or.inl (by decide))⟩

/-- C8: on otherwise valid inputs, a supplied seed that is not a
two-element integer list — for example a bare integer — makes the call
fail with a contract (type) error, before any sampling occurs. -/
theorem C8_malformed_seed_rejected (stream : ℤ × ℤ → ℕ → List ℚ) (entropy : ℕ → ℤ × ℤ)
    (f : List ℚ → ℚ) (npoints : ℤ) (xl xu : List ℚ) (nprocs : ℤ)
    (batch_size : Option ℤ) (seed : PySeed)
    (hlen : xl.length = xu.length) (h2 : 2 ≤ npoints) (h1 : 1 ≤ nprocs)
    (hbad : isWellFormedSeed seed = false) :
    mcquad stream entropy f npoints xl xu nprocs batch_size seed =
      .error .contractError :=
  mcquad_malformed_seed stream entropy f npoints xl xu nprocs batch_size seed
    hlen h2 h1 hbad

/-- C8 witness: the bare integer seed `1234` is rejected with a contract
error on an otherwise valid call. -/
theorem C8_malformed_seed_rejected_witness :
    ([(0 : ℚ)].length = [(1 : ℚ)].length ∧ (2 : ℤ) ≤ 2000 ∧ (1 : ℤ) ≤ 1 ∧
      isWellFormedSeed (.int 1234) = false) ∧
    mcquad wStream wEntropy wOne 2000 [0] [1] 1 none (.int 1234) =
      .error .contractError :=
  ⟨⟨rfl, by norm_num, le_refl 1, rfl⟩,
   C8_malformed_seed_rejected wStream wEntropy wOne 2000 [0] [1] 1 none (.int 1234)
     rfl (by norm_num) (le_refl 1) rfl⟩

/-- C10: a two-element integer list is an accepted seed — it validates
to its seed pair and the full determinism guarantee holds for it (the
result does not depend on the fresh-entropy source) — while a bare
integer seed is rejected with a contract (type) error. -/
theorem C10_list_seed_accepted (dist stream : ℤ × ℤ → ℕ → List ℚ) (f : List ℚ → ℚ)
    (npoints nprocs : ℤ) (weight : ℚ) (batch_size : Option ℤ) (xl xu : List ℚ)
    (s0 s1 n : ℤ) (e1 e2 : ℕ → ℤ × ℤ)
    (hlen : xl.length = xu.length) (h2 : 2 ≤ npoints) (h1 : 1 ≤ nprocs) :
    validateSeed (.list [s0, s1]) = .ok (some (s0, s1)) ∧
    mcimport dist e1 f npoints nprocs weight (.list [s0, s1]) =
      mcimport dist e2 f npoints nprocs weight (.list [s0, s1]) ∧
    mcquad stream e1 f npoints xl xu nprocs batch_size (.int n) =
      .error .contractError :=
  ⟨rfl,
   mcimport_entropy_irrelevant dist f npoints nprocs weight s0 s1 e1 e2,
   mcquad_malformed_seed stream e1 f npoints xl xu nprocs batch_size (.int n)
     hlen h2 h1 rfl⟩

/-- Uniform batch values of the constant integrand are a list of ones. -/
lemma uniformValues_one (stream : ℤ × ℤ → ℕ → List ℚ) (xl xu : List ℚ)
    (sd : ℤ × ℤ) (n : ℕ) :
    uniformValues stream (fun _ => 1) xl xu sd n = List.replicate n 1 := by
  unfold uniformValues
  rw [List.map_const', List.length_range]

/-- Accumulating `n` ones gives the statistics `(n, n, n)`. -/
lemma accumulate_replicate_one (n : ℕ) :
    accumulate (List.replicate n 1) = ⟨n, (n : ℚ), (n : ℚ)⟩ := by
  unfold accumulate
  simp [List.sum_replicate, List.map_replicate]

/-- If every worker returns the diagonal statistics `(n, n, n)`, the
reduction is the diagonal of the total point count. -/
lemma reduceStats_diag (worker : ℕ → ℕ → BatchStatistics)
    (h : ∀ i n, worker i n = ⟨n, (n : ℚ), (n : ℚ)⟩) (counts : List ℕ) (i0 : ℕ) :
    reduceStats (runBatches worker i0 counts) =
      ⟨counts.sum, (counts.sum : ℚ), (counts.sum : ℚ)⟩ := by
  induction counts generalizing i0 with
  | nil => rfl
  | cons c t ih =>
    show (worker i0 c).add (reduceStats (runBatches worker (i0 + 1) t)) = _
    rw [h, ih]
    unfold BatchStatistics.add
    simp [Nat.cast_add]

/-- Deriving from diagonal statistics with a nonzero count gives mean
one and standard error zero. -/
lemma derive_diag (N : ℕ) (h : N ≠ 0) :
    derive ⟨N, (N : ℚ), (N : ℚ)⟩ = (1, 0) := by
  have h0 : (N : ℝ) ≠ 0 := Nat.cast_ne_zero.mpr h
  unfold derive
  simp only [Rat.cast_natCast]
  rw [div_self h0]
  norm_num

/-- The uniform pipeline on the constant integrand produces the
diagonal global statistics of the full point count. -/
lemma uniformGlobalStats_one (stream : ℤ × ℤ → ℕ → List ℚ) (xl xu : List ℚ)
    (entropy : ℕ → ℤ × ℤ) (sd : Option (ℤ × ℤ)) (np bsz : ℕ) :
    uniformGlobalStats stream (fun _ => 1) xl xu entropy sd np bsz =
      ⟨np, (np : ℚ), (np : ℚ)⟩ := by
  unfold uniformGlobalStats
  rw [reduceStats_diag, batchSizes_sum]
  intro i n
  unfold uniformWorker
  rw [uniformValues_one, accumulate_replicate_one]

/-- On any valid call, uniform quadrature of the constant integrand `1`
returns the rectangle volume with zero standard error. -/
lemma mcquad_const_one (stream : ℤ × ℤ → ℕ → List ℚ) (entropy : ℕ → ℤ × ℤ)
    (npoints : ℤ) (xl xu : List ℚ) (nprocs : ℤ) (batch_size : Option ℤ)
    (seed : PySeed) (sd : Option (ℤ × ℤ))
    (hlen : xl.length = xu.length) (h2 : 2 ≤ npoints) (h1 : 1 ≤ nprocs)
    (hs : validateSeed seed = .ok sd) :
    mcquad stream entropy (fun _ => 1) npoints xl xu nprocs batch_size seed =
      .ok (((volume xl xu : ℚ) : ℝ), 0) := by
  unfold mcquad
  rw [if_neg (by push_neg; exact ⟨hlen, by omega, by omega⟩), hs]
  show Except.ok (uniformResult stream entropy (fun _ => 1) npoints xl xu nprocs batch_size sd) = _
  unfold uniformResult
  rw [uniformGlobalStats_one, derive_diag _ (by omega), scale2]
  norm_num

/-- Importance batch values with weight `w` are the weight-one values,
each multiplied by `w`. -/
lemma importValues_weight (dist : ℤ × ℤ → ℕ → List ℚ) (f : List ℚ → ℚ)
    (w : ℚ) (sd : ℤ × ℤ) (n : ℕ) :
    importValues dist f w sd n = (importValues dist f 1 sd n).map (fun v => w * v) := by
  unfold importValues
  rw [List.map_map]
  congr 1
  funext j
  simp

/-- Sum of a list after multiplying each entry by `w`. -/
lemma sum_map_mul (w : ℚ) (vs : List ℚ) :
    (vs.map (fun v => w * v)).sum = w * vs.sum := by
  induction vs with
  | nil => simp
  | cons a t ih => simp [ih, mul_add]

/-- Sum of squares of a list after multiplying each entry by `w`. -/
lemma sum_map_mul_sq (w : ℚ) (vs : List ℚ) :
    ((vs.map (fun v => w * v)).map (fun v => v ^ 2)).sum =
      w ^ 2 * (vs.map (fun v => v ^ 2)).sum := by
  induction vs with
  | nil => simp
  | cons a t ih =>
    simp only [List.map_cons, List.sum_cons, ih]
    ring

/-- Accumulating scaled values scales the statistics. -/
lemma accumulate_map_mul (w : ℚ) (vs : List ℚ) :
    accumulate (vs.map (fun v => w * v)) = scaleStats w (accumulate vs) := by
  unfold accumulate scaleStats
  rw [List.length_map, sum_map_mul, sum_map_mul_sq]

/-- An importance worker with weight `w` returns the weight-one
statistics, scaled. -/
lemma importWorker_weight (dist : ℤ × ℤ → ℕ → List ℚ) (f : List ℚ → ℚ)
    (w : ℚ) (entropy : ℕ → ℤ × ℤ) (sd : Option (ℤ × ℤ)) (i n : ℕ) :
    importWorker dist f w entropy sd i n =
      scaleStats w (importWorker dist f 1 entropy sd i n) := by
  unfold importWorker
  rw [importValues_weight, accumulate_map_mul]

/-- Adding scaled statistics scales the sum. -/
lemma add_scaleStats (w : ℚ) (a b : BatchStatistics) :
    (scaleStats w a).add (scaleStats w b) = scaleStats w (a.add b) := by
  unfold scaleStats BatchStatistics.add
  simp [mul_add]

/-- Reducing a run of uniformly scaled workers scales the reduction. -/
lemma runBatches_scale (w : ℚ) (base : ℕ → ℕ → BatchStatistics)
    (counts : List ℕ) (i0 : ℕ) :
    reduceStats (runBatches (fun i n => scaleStats w (base i n)) i0 counts) =
      scaleStats w (reduceStats (runBatches base i0 counts)) := by
  induction counts generalizing i0 with
  | nil =>
    show emptyStats = scaleStats w emptyStats
    unfold emptyStats scaleStats
    simp
  | cons c t ih =>
    show (scaleStats w (base i0 c)).add
        (reduceStats (runBatches (fun i n => scaleStats w (base i n)) (i0 + 1) t)) = _
    rw [ih, add_scaleStats]
    rfl

/-- Global importance statistics with weight `w` are the weight-one
statistics, scaled. -/
lemma importGlobalStats_weight (dist : ℤ × ℤ → ℕ → List ℚ) (f : List ℚ → ℚ)
    (w : ℚ) (entropy : ℕ → ℤ × ℤ) (sd : Option (ℤ × ℤ)) (np bs : ℕ) :
    importGlobalStats dist f w entropy sd np bs =
      scaleStats w (importGlobalStats dist f 1 entropy sd np bs) := by
  unfold importGlobalStats
  have hw : importWorker dist f w entropy sd =
      fun i n => scaleStats w (importWorker dist f 1 entropy sd i n) := by
    funext i n
    exact importWorker_weight dist f w entropy sd i n
  rw [hw, runBatches_scale]

/-- Deriving from scaled statistics scales the mean by `w` and the
standard error by `|w|`. -/
lemma derive_scaleStats (w : ℚ) (g : BatchStatistics) :
    derive (scaleStats w g) = ((w : ℝ) * (derive g).1, |(w : ℝ)| * (derive g).2) := by
  unfold derive scaleStats
  simp only [Rat.cast_mul, Rat.cast_pow, Prod.mk.injEq]
  constructor
  · rw [mul_div_assoc]
  · have key : ((w : ℝ) ^ 2 * (g.S2 : ℝ) / (g.n : ℝ) -
        ((w : ℝ) * (g.S : ℝ) / (g.n : ℝ)) ^ 2) / (g.n : ℝ) =
        (w : ℝ) ^ 2 * (((g.S2 : ℝ) / (g.n : ℝ) -
          ((g.S : ℝ) / (g.n : ℝ)) ^ 2) / (g.n : ℝ)) := by ring
    rw [key, Real.sqrt_mul (sq_nonneg _), Real.sqrt_sq_eq_abs]

/-- If the weight-one importance run returns `(m, s)`, the weight-`w`
run returns `(w * m, |w| * s)`. -/
lemma mcimport_weight (dist : ℤ × ℤ → ℕ → List ℚ) (entropy : ℕ → ℤ × ℤ)
    (f : List ℚ → ℚ) (npoints nprocs : ℤ) (w : ℚ) (seed : PySeed)
    (sd : Option (ℤ × ℤ)) (m s : ℝ)
    (hs : validateSeed seed = .ok sd)
    (h1 : mcimport dist entropy f npoints nprocs 1 seed = .ok (m, s)) :
    mcimport dist entropy f npoints nprocs w seed =
      .ok ((w : ℝ) * m, |(w : ℝ)| * s) := by
  unfold mcimport at h1 ⊢
  by_cases hv : npoints < 2 ∨ nprocs < 1
  · rw [if_pos hv] at h1
    exact absurd h1 (by simp)
  · rw [if_neg hv, hs] at h1 ⊢
    replace h1 : Except.ok (importResult dist entropy f npoints nprocs 1 sd) =
      Except.ok (m, s) := h1
    have h2 : importResult dist entropy f npoints nprocs 1 sd = (m, s) :=
      Except.ok.inj h1
    show Except.ok (importResult dist entropy f npoints nprocs w sd) = _
    unfold importResult at h2 ⊢
    rw [importGlobalStats_weight, derive_scaleStats, h2]

/-- C10 witness: the list seed `[1234, 5678]` is accepted and gives an
entropy-independent result, while the bare integer seed `1234` is
rejected, on concrete valid inputs. -/
theorem C10_list_seed_accepted_witness :
    ([(0 : ℚ)].length = [(1 : ℚ)].length ∧ (2 : ℤ) ≤ 50000 ∧ (1 : ℤ) ≤ 1) ∧
    (validateSeed (.list [1234, 5678]) = .ok (some (1234, 5678)) ∧
      mcimport wDist wEntropy wSum 50000 1 1 (.list [1234, 5678]) =
        mcimport wDist wEntropy2 wSum 50000 1 1 (.list [1234, 5678]) ∧
      mcquad wStream wEntropy wSum 50000 [0] [1] 1 none (.int 1234) =
        .error .contractError) :=
  ⟨⟨rfl, by norm_num, le_refl 1⟩,
   C10_list_seed_accepted wDist wStream wSum 50000 1 1 none [0] [1] 1234 5678 1234
     wEntropy wEntropy2 rfl (by norm_num) (le_refl 1)⟩

/-- C4: for the constant integrand `f(x) = 1` over any hyper-rectangle
`[xl, xu]` with equal bound lengths, uniform quadrature with
`npoints ≥ 2` and `nprocs ∈ \x7b1, 2\x7d` returns the estimate
`volume xl xu` — the product of the side lengths `xuᵢ - xlᵢ` — with
standard error `0`. -/
theorem C4_const_integrand (stream : ℤ × ℤ → ℕ → List ℚ) (entropy : ℕ → ℤ × ℤ)
    (npoints : ℤ) (xl xu : List ℚ) (nprocs : ℤ) (batch_size : Option ℤ)
    (seed : PySeed) (sd : Option (ℤ × ℤ))
    (hlen : xl.length = xu.length) (h2 : 2 ≤ npoints)
    (hpr : nprocs = 1 ∨ nprocs = 2) (hs : validateSeed seed = .ok sd) :
    mcquad stream entropy (fun _ => 1) npoints xl xu nprocs batch_size seed =
      .ok (((volume xl xu : ℚ) : ℝ), 0) :=
  mcquad_const_one stream entropy npoints xl xu nprocs batch_size seed sd
    hlen h2 (by omega) hs

/-- C4 witness: the constant integrand over `[0, 2]` with two points on
one worker gives estimate `2` (the volume) and standard error `0`. -/
theorem C4_const_integrand_witness :
    (([(0 : ℚ)].length = [(2 : ℚ)].length ∧ (2 : ℤ) ≤ 2 ∧ ((1 : ℤ) = 1 ∨ (1 : ℤ) = 2) ∧
      validateSeed .absent = .ok none) ∧
    mcquad wStream wEntropy (fun _ => 1) 2 [0] [2] 1 none .absent =
      .ok (((volume [0] [2] : ℚ) : ℝ), 0)) :=
  ⟨⟨rfl, le_refl 2, Or.inl rfl, rfl⟩,
   C4_const_integrand wStream wEntropy 2 [0] [2] 1 none .absent none
     rfl (le_refl 2) (Or.inl rfl) rfl⟩

/-- C1: the Reducer derives `mean = S / N`,
`variance = S2 / N - mean ^ 2` (population moments, no Bessel
correction) and `standard_error = sqrt (variance / N)` from any reduced
global statistics with `N ≥ 2`; on every valid call, the pair returned
by `mcquad` is this derivation of its reduced statistics scaled by the
rectangle volume, and the pair returned by `mcimport` is this
derivation of its reduced (per-sample weighted) statistics. -/
theorem C1_reducer_derivation (g : BatchStatistics) (hg : 2 ≤ g.n)
    (stream dist : ℤ × ℤ → ℕ → List ℚ) (entropy : ℕ → ℤ × ℤ) (f : List ℚ → ℚ)
    (weight : ℚ) (npoints nprocs : ℤ) (batch_size : Option ℤ) (seed : PySeed)
    (sd : Option (ℤ × ℤ)) (xl xu : List ℚ)
    (hlen : xl.length = xu.length) (h2 : 2 ≤ npoints) (h1 : 1 ≤ nprocs)
    (hs : validateSeed seed = .ok sd) :
    derive g = ((g.S : ℝ) / (g.n : ℝ),
      Real.sqrt (((g.S2 : ℝ) / (g.n : ℝ) - ((g.S : ℝ) / (g.n : ℝ)) ^ 2) / (g.n : ℝ))) ∧
    mcquad stream entropy f npoints xl xu nprocs batch_size seed =
      .ok (scale2 ((volume xl xu : ℚ) : ℝ)
        (derive (uniformGlobalStats stream f xl xu entropy sd npoints.toNat
          (effectiveBatchSize npoints.toNat nprocs.toNat batch_size)))) ∧
    mcimport dist entropy f npoints nprocs weight seed =
      .ok (derive (importGlobalStats dist f weight entropy sd npoints.toNat
        (effectiveBatchSize npoints.toNat nprocs.toNat none))) := by
  refine ⟨rfl, ?_, ?_⟩
  · unfold mcquad
    rw [if_neg (by push_neg; exact ⟨hlen, by omega, by omega⟩), hs]
    rfl
  · unfold mcimport
    rw [if_neg (by push_neg; exact ⟨by omega, by omega⟩), hs]
    rfl

/-- C1 witness: the derivation and both entry-point identities at
concrete statistics `wStatsB` and a concrete valid call. -/
theorem C1_reducer_derivation_witness :
    ((2 ≤ wStatsB.n ∧ ([(0 : ℚ)].length = [(1 : ℚ)].length ∧ (2 : ℤ) ≤ 2 ∧ (1 : ℤ) ≤ 1 ∧
        validateSeed .absent = .ok none) ) ∧
    (derive wStatsB = ((wStatsB.S : ℝ) / (wStatsB.n : ℝ),
        Real.sqrt (((wStatsB.S2 : ℝ) / (wStatsB.n : ℝ) -
          ((wStatsB.S : ℝ) / (wStatsB.n : ℝ)) ^ 2) / (wStatsB.n : ℝ))) ∧
      mcquad wStream wEntropy wSum 2 [0] [1] 1 none .absent =
        .ok (scale2 ((volume [0] [1] : ℚ) : ℝ)
          (derive (uniformGlobalStats wStream wSum [0] [1] wEntropy none (2 : ℤ).toNat
            (effectiveBatchSize (2 : ℤ).toNat (1 : ℤ).toNat none)))) ∧
      mcimport wDist wEntropy wSum 2 1 1 .absent =
        .ok (derive (importGlobalStats wDist wSum 1 wEntropy none (2 : ℤ).toNat
          (effectiveBatchSize (2 : ℤ).toNat (1 : ℤ).toNat none))))) :=
  ⟨⟨by norm_num [wStatsB], ⟨rfl, by norm_num, le_refl 1, rfl⟩⟩,
   C1_reducer_derivation wStatsB (by norm_num [wStatsB]) wStream wDist wEntropy wSum
     1 2 1 none .absent none [0] [1] rfl (by norm_num) (le_refl 1) rfl⟩

/-- C5 (amended): with fixed random draws, the importance run with
weight `w` returns an estimate exactly `w` times and a standard error
exactly `|w|` times those of the otherwise-identical weight-one run —
each sample value is multiplied by `w` before accumulation, and the
square root restores only the magnitude of `w`. -/
theorem C5_weight_scaling (dist : ℤ × ℤ → ℕ → List ℚ) (entropy : ℕ → ℤ × ℤ)
    (f : List ℚ → ℚ) (npoints nprocs : ℤ) (w : ℚ) (seed : PySeed)
    (sd : Option (ℤ × ℤ)) (m s : ℝ)
    (hs : validateSeed seed = .ok sd)
    (h1 : mcimport dist entropy f npoints nprocs 1 seed = .ok (m, s)) :
    mcimport dist entropy f npoints nprocs w seed =
      .ok ((w : ℝ) * m, |(w : ℝ)| * s) :=
  mcimport_weight dist entropy f npoints nprocs w seed sd m s hs h1

/-- C5 counterexample: a two-point importance run with value list
`[0, 1]` has standard error `sqrt (1/8) > 0` at weight one, and at
weight `-1` the returned standard error is again `sqrt (1/8)`, not the
claimed `(-1) · sqrt (1/8)`; so the standard error does not scale by
`w` for negative weights. -/
theorem C5_weight_scaling_counterexample :
    mcimport wDist wEntropy wSum 2 1 1 .absent =
      .ok ((1 / 2 : ℝ), Real.sqrt (1 / 8)) ∧
    mcimport wDist wEntropy wSum 2 1 (-1) .absent ≠
      .ok ((-1 : ℝ) * (1 / 2), (-1 : ℝ) * Real.sqrt (1 / 8)) := by
  have hb1 : importGlobalStats wDist wSum 1 wEntropy none (2 : ℤ).toNat
      (effectiveBatchSize (2 : ℤ).toNat (1 : ℤ).toNat none) = ⟨2, 1, 1⟩ := by
    simp [importGlobalStats, effectiveBatchSize, batchSizes, runBatches,
      importWorker, importValues, accumulate, reduceStats, emptyStats,
      BatchStatistics.add, batchSeed, wDist, wSum, wEntropy,
      show List.range 2 = [0, 1] from rfl, Function.comp,
      BatchStatistics.mk.injEq]
  have hbm : importGlobalStats wDist wSum (-1) wEntropy none (2 : ℤ).toNat
      (effectiveBatchSize (2 : ℤ).toNat (1 : ℤ).toNat none) = ⟨2, -1, 1⟩ := by
    simp [importGlobalStats, effectiveBatchSize, batchSizes, runBatches,
      importWorker, importValues, accumulate, reduceStats, emptyStats,
      BatchStatistics.add, batchSeed, wDist, wSum, wEntropy,
      show List.range 2 = [0, 1] from rfl, Function.comp,
      BatchStatistics.mk.injEq]
  have hd1 : derive ⟨2, 1, 1⟩ = ((1 / 2 : ℝ), Real.sqrt (1 / 8)) := by
    unfold derive
    norm_num
  have hdm : derive ⟨2, -1, 1⟩ = ((-(1 / 2) : ℝ), Real.sqrt (1 / 8)) := by
    unfold derive
    norm_num
  constructor
  · unfold mcimport
    rw [if_neg (by norm_num)]
    show Except.ok (importResult wDist wEntropy wSum 2 1 1 none) = _
    unfold importResult
    rw [hb1, hd1]
  · unfold mcimport
    rw [if_neg (by norm_num)]
    show Except.ok (importResult wDist wEntropy wSum 2 1 (-1) none) ≠ _
    unfold importResult
    rw [hbm, hdm]
    intro h
    have hpair := Except.ok.inj h
    have hsnd : Real.sqrt (1 / 8) = (-1 : ℝ) * Real.sqrt (1 / 8) :=
      congrArg Prod.snd hpair
    have hpos : 0 < Real.sqrt (1 / 8) := Real.sqrt_pos.mpr (by norm_num)
    nlinarith [hsnd, hpos]

/-- C5 witness: scaling the zero-variance constant-integrand run by
weight `3` triples the estimate and leaves the zero standard error. -/
theorem C5_weight_scaling_witness :
    (validateSeed .absent = .ok none ∧
      mcimport wDist wEntropy wOne 2 1 1 .absent = .ok ((1 : ℝ), 0)) ∧
    mcimport wDist wEntropy wOne 2 1 3 .absent =
      .ok (((3 : ℚ) : ℝ) * 1, |((3 : ℚ) : ℝ)| * 0) := by
  have hb1 : importGlobalStats wDist wOne 1 wEntropy none (2 : ℤ).toNat
      (effectiveBatchSize (2 : ℤ).toNat (1 : ℤ).toNat none) = ⟨2, 2, 2⟩ := by
    simp [importGlobalStats, effectiveBatchSize, batchSizes, runBatches,
      importWorker, importValues, accumulate, reduceStats, emptyStats,
      BatchStatistics.add, batchSeed, wDist, wOne, wEntropy,
      show List.range 2 = [0, 1] from rfl, Function.comp,
      BatchStatistics.mk.injEq]
    norm_num
  have hd1 : derive ⟨2, 2, 2⟩ = ((1 : ℝ), 0) := by
    unfold derive
    norm_num
  have h1 : mcimport wDist wEntropy wOne 2 1 1 .absent = .ok ((1 : ℝ), 0) := by
    unfold mcimport
    rw [if_neg (by norm_num)]
    show Except.ok (importResult wDist wEntropy wOne 2 1 1 none) = _
    unfold importResult
    rw [hb1, hd1]
  exact ⟨⟨rfl, h1⟩,
    C5_weight_scaling wDist wEntropy wOne 2 1 3 .absent none 1 0 rfl h1⟩

end Skmcquad
